import Mathlib

/-
Formal model of the ember-simple-auth session core.

Source files modelled:
  src/packages/ember-simple-auth/lib/session.js        (Ember.SimpleAuth.Session)
  src/lib/ember-simple-auth/authenticators/base.js     (authenticator base class)
  src/packages/ember-simple-auth/lib/authorizers/base.js (authorizer base class)

Modelling choices:
  - A JavaScript property bag is an association list from string keys to
    string values (values are opaque to the session, so strings suffice).
  - Promise outcomes delivered by the external authenticator or store are
    passed to each operation as an explicit argument of type Except.
  - Store interaction is recorded as a trace of StoreOp values, in the
    order the corresponding store methods are called by the source.
  - The listener bag of Ember.Evented handlers for the
    ember-simple-auth:session-updated event is a list of authenticator
    names, one entry per currently attached handler.
-/

namespace EmberSimpleAuth

/-- Association-list model of a JavaScript object used as a property bag. -/
abbrev PropertyBag := List (String × String)

/-- Assignment obj[k] = v on a JavaScript object: replaces the value of an
existing key in place, otherwise appends the key at the end. -/
def setKey : PropertyBag → String → String → PropertyBag
  | [], k, v => [(k, v)]
  | p :: rest, k, v => if p.1 = k then (k, v) :: rest else p :: setKey rest k v

/-- Property read obj[k] on a JavaScript object. -/
def getKey : PropertyBag → String → Option String
  | [], _ => none
  | p :: rest, k => if p.1 = k then some p.2 else getKey rest k

/-- Property removal (the JavaScript delete operator) of the key k. -/
def deleteKey : PropertyBag → String → PropertyBag
  | [], _ => []
  | p :: rest, k => if p.1 = k then deleteKey rest k else p :: deleteKey rest k

/-- Model of Ember.$.extend(base, over): every key of over is assigned onto
base, so keys present in both take the value from over. -/
def extendRecord (base over : PropertyBag) : PropertyBag :=
  over.foldl (fun acc p => setKey acc p.1 p.2) base

/-- Truthiness test of session.js lines 75 and 223: a factory read from a
record counts only when the key is present and the value is a non-empty
string (the empty string is falsy in JavaScript). -/
def truthyFactory (props : PropertyBag) : Option String :=
  match getKey props "authenticatorFactory" with
  | some f => if f = "" then none else some f
  | none => none

/-- Observable fields of the Session object (session.js lines 34, 54, 64):
authenticatorFactory, isAuthenticated and the proxied content. -/
structure SessionState where
  isAuthenticated : Bool
  authenticatorFactory : Option String
  content : Option PropertyBag

/-- Store method calls made by the Session, in call order. -/
inductive StoreOp where
  | lock
  | unlock
  | clear
  | persist (record : PropertyBag)

/-- Number of session-updated handlers currently attached to the
authenticator named f. -/
def listenerCount (f : String) : List String → Nat
  | [] => 0
  | a :: t => (if a = f then 1 else 0) + listenerCount f t

/-- Effect of authenticator.off, which detaches every handler of the event
from the authenticator named f. -/
def removeListeners (f : String) : List String → List String
  | [] => []
  | a :: t => if a = f then removeListeners f t else a :: removeListeners f t

/-- Model of bindToAuthenticatorEvents (session.js lines 206-213): the
authenticator named f is looked up, all of its session-updated handlers are
detached with off, and one fresh handler is attached with on. -/
def bindToAuthenticatorEvents (f : String) (ls : List String) : List String :=
  removeListeners f ls ++ [f]

/-- Record persisted by setup (session.js line 166): the content extended
over a one-key object carrying the authenticator factory name, so a
factory key inside the content overrides the injected one. -/
def setupPersistedData (f : String) (c : PropertyBag) : PropertyBag :=
  extendRecord [("authenticatorFactory", f)] c

/-- Model of setup (session.js lines 159-181). The three session fields are
assigned together, the authenticator events are rebound, and the guarded
store sequence lock, clear, persist, unlock runs only when the store is not
locked. When the factory is null (reachable through a stale session-updated
handler firing on a cleared session), container.lookup at line 208 raises
before any store call, after the field assignment of lines 160-164 has
already happened, so the listeners and the store are left untouched. -/
def setupJs (locked : Bool) (factory : Option String) (c : PropertyBag)
    (ls : List String) : SessionState × List String × List StoreOp :=
  match factory with
  | some f =>
      (⟨true, some f, some c⟩, bindToAuthenticatorEvents f ls,
        if locked then []
        else [StoreOp.lock, StoreOp.clear, StoreOp.persist (setupPersistedData f c),
          StoreOp.unlock])
  | none => (⟨true, none, some c⟩, ls, [])

/-- Model of clear (session.js lines 187-200): the three session fields are
reset together and the store is cleared only when it is not locked; no lock
or unlock call surrounds the store clear. -/
def clearJs (locked : Bool) : SessionState × List StoreOp :=
  (⟨false, none, none⟩, if locked then [] else [StoreOp.clear])

/-- Model of authenticate (session.js lines 113-124) applied to the outcome
of the promise returned by the looked-up authenticator: resolution with
content c runs setup and resolves, rejection with e runs clear and rejects
with the same e. -/
def authenticateJs (locked : Bool) (f : String) (outcome : Except String PropertyBag)
    (ls : List String) :
    SessionState × List String × List StoreOp × Except String Unit :=
  match outcome with
  | Except.ok c =>
      let st := setupJs locked (some f) c ls
      (st.1, st.2.1, st.2.2, Except.ok ())
  | Except.error e =>
      let cl := clearJs locked
      (cl.1, ls, cl.2, Except.error e)

/-- Model of invalidate (session.js lines 141-153) applied to the outcome of
the authenticator promise: resolution detaches the handlers of the active
authenticator and runs clear, rejection with e leaves everything unchanged
and rejects with the same e. When no factory is active, container.lookup
of a null name at line 144 yields no usable authenticator and the method
call raises inside the promise executor, which rejects the returned promise
with a TypeError before any state change. -/
def invalidateJs (locked : Bool) (s : SessionState) (ls : List String)
    (outcome : Except String Unit) :
    SessionState × List String × List StoreOp × Except String Unit :=
  match s.authenticatorFactory with
  | some f =>
      match outcome with
      | Except.ok _ =>
          let cl := clearJs locked
          (cl.1, removeListeners f ls, cl.2, Except.ok ())
      | Except.error e => (s, ls, [], Except.error e)
  | none => (s, ls, [], Except.error "TypeError: no active authenticator")

/-- Model of the store event handler of bindToStoreEvents (session.js lines
219-234) applied to the notified properties and to the outcome of the
restore promise: a truthy factory with a resolving restore runs setup, a
truthy factory with a rejecting restore runs clear, and a missing or falsy
factory runs clear. The argument handed to restore is the notified record
with the authenticatorFactory key deleted (line 224). -/
def storeUpdatedJs (locked : Bool) (props : PropertyBag)
    (restoreOutcome : Except Unit PropertyBag) (ls : List String) :
    SessionState × List String × List StoreOp :=
  match truthyFactory props with
  | some f =>
      match restoreOutcome with
      | Except.ok c => setupJs locked (some f) c ls
      | Except.error _ =>
          let cl := clearJs locked
          (cl.1, ls, cl.2)
  | none =>
      let cl := clearJs locked
      (cl.1, ls, cl.2)

/-- Model of init (session.js lines 70-95) applied to the record read from
the store and to the outcome of the restore promise. The last component
records an exception absorbed by the promise machinery, if any. On a truthy
factory whose restore rejects, the handler of lines 79-85 evaluates
this.store where this is undefined (the enclosing file is strict-mode code
and the handler is invoked as a plain function; every other access in the
file goes through the captured _this), so the handler raises a TypeError
before reaching any store call and the store is left untouched whatever the
lock state. Without a truthy factory, the store is cleared when unlocked
(lines 88-93, correctly bound). -/
def initJs (locked : Bool) (r : PropertyBag)
    (restoreOutcome : Except Unit PropertyBag) :
    SessionState × List String × List StoreOp × Option String :=
  match truthyFactory r with
  | some f =>
      match restoreOutcome with
      | Except.ok c =>
          let st := setupJs locked (some f) c []
          (st.1, st.2.1, st.2.2, none)
      | Except.error _ =>
          (⟨false, none, none⟩, [], [],
            some "TypeError: cannot read property store of undefined")
  | none =>
      (⟨false, none, none⟩, [],
        if locked then [] else [StoreOp.clear], none)

/-- Events driving the session state machine. Each event carries the lock
state the store reports during the event and the outcome delivered by the
external authenticator where one is consulted. -/
inductive Event where
  | authenticate (locked : Bool) (f : String) (outcome : Except String PropertyBag)
  | invalidate (locked : Bool) (outcome : Except String Unit)
  | sessionUpdated (locked : Bool) (c : PropertyBag)
  | storeUpdated (locked : Bool) (props : PropertyBag)
      (restoreOutcome : Except Unit PropertyBag)

/-- Session fields together with the attached session-updated handlers. -/
structure MachineState where
  session : SessionState
  listeners : List String

/-- State of a freshly constructed session whose store held no record. -/
def initMachine : MachineState := ⟨⟨false, none, none⟩, []⟩

/-- One transition of the session. A session-updated event is delivered
only when at least one handler is attached, and the handler of line 211
reads the factory that is current at fire time. -/
def step (m : MachineState) : Event → MachineState
  | Event.authenticate locked f outcome =>
      let r := authenticateJs locked f outcome m.listeners
      ⟨r.1, r.2.1⟩
  | Event.invalidate locked outcome =>
      let r := invalidateJs locked m.session m.listeners outcome
      ⟨r.1, r.2.1⟩
  | Event.sessionUpdated locked c =>
      match m.listeners.isEmpty with
      | true => m
      | false =>
          let r := setupJs locked m.session.authenticatorFactory c m.listeners
          ⟨r.1, r.2.1⟩
  | Event.storeUpdated locked props ro =>
      let r := storeUpdatedJs locked props ro m.listeners
      ⟨r.1, r.2.1⟩

/-- Run of the machine from an arbitrary state. -/
def runFrom (m : MachineState) (events : List Event) : MachineState :=
  events.foldl step m

/-- Run of the machine from the initial state. -/
def runMachine (events : List Event) : MachineState :=
  runFrom initMachine events

/-- State-machine invariant claimed by the specification: the session is
authenticated exactly when both the factory and the content are present. -/
def SessionInvariant (s : SessionState) : Bool :=
  s.isAuthenticated == (s.authenticatorFactory.isSome && s.content.isSome)

/-- Guard on an event: a session-updated event is admissible only while the
session is authenticated, which is the firing condition the specification
states for that notification. -/
def eventOk (m : MachineState) : Event → Bool
  | Event.sessionUpdated _ _ => m.session.isAuthenticated
  | _ => true

/-- Trace admissibility: every session-updated event in the trace is
delivered in an authenticated state. -/
def okTrace : MachineState → List Event → Bool
  | _, [] => true
  | m, e :: rest => eventOk m e && okTrace (step m e) rest

/-- Outcome of a promise, as observed by a caller that attaches handlers. -/
inductive PromiseOutcome (α : Type) where
  | resolved (value : α)
  | rejected (reason : Option String)

/-- Test of the rejected constructor. -/
def PromiseOutcome.isRejected {α : Type} : PromiseOutcome α → Bool
  | PromiseOutcome.resolved _ => false
  | PromiseOutcome.rejected _ => true

/-- Model of the inert restore (authenticators/base.js lines 63-65): the
returned promise rejects immediately with no reason. -/
def Authenticators.Base.restore (properties : PropertyBag) :
    PromiseOutcome PropertyBag :=
  PromiseOutcome.rejected none

/-- Model of the inert authenticate (authenticators/base.js lines 90-92):
the returned promise rejects immediately with no reason. -/
def Authenticators.Base.authenticate (options : PropertyBag) :
    PromiseOutcome PropertyBag :=
  PromiseOutcome.rejected none

/-- Model of the inert invalidate (authenticators/base.js lines 111-113):
the executor names only resolve as a parameter and calls the unbound
identifier reject, so the executor raises a ReferenceError, which the
promise machinery turns into a rejection with that error. -/
def Authenticators.Base.invalidate (content : PropertyBag) :
    PromiseOutcome Unit :=
  PromiseOutcome.rejected (some "ReferenceError: reject is not defined")

/-- Model of the base authorize (authorizers/base.js lines 47-48): the body
is empty, so the request and the options come back unchanged, nothing is
read from the session, and no value is returned. -/
def Authorizers.Base.authorize (session : Option PropertyBag)
    (jqXHR : PropertyBag) (requestOptions : PropertyBag) :
    PropertyBag × PropertyBag × Option String :=
  (jqXHR, requestOptions, none)

/-- Assignment of an absent key appends it at the end of the bag. -/
theorem setKey_of_getKey_none (l : PropertyBag) (k v : String)
    (h : getKey l k = none) : setKey l k v = l ++ [(k, v)] := by
  induction l with
  | nil => rfl
  | cons p rest ih =>
      by_cases hp : p.1 = k
      · simp [getKey, hp] at h
      · simp only [getKey, hp, if_false] at h
        simp [setKey, hp, ih h]

/-- Lookup skips a prefix that does not contain the key. -/
theorem getKey_append_of_none (l1 l2 : PropertyBag) (k : String)
    (h : getKey l1 k = none) : getKey (l1 ++ l2) k = getKey l2 k := by
  induction l1 with
  | nil => rfl
  | cons p rest ih =>
      by_cases hp : p.1 = k
      · simp [getKey, hp] at h
      · simp only [getKey, hp, if_false] at h
        simp only [List.cons_append, getKey, hp, if_false]
        exact ih h

/-- Keys of a bag in which lookup fails differ from the looked-up key. -/
theorem forall_ne_of_getKey_none (l : PropertyBag) (k : String)
    (h : getKey l k = none) : ∀ p ∈ l, p.1 ≠ k := by
  induction l with
  | nil => intro p hp; cases hp
  | cons q rest ih =>
      by_cases hq : q.1 = k
      · simp [getKey, hq] at h
      · simp only [getKey, hq, if_false] at h
        intro p hp
        rcases List.mem_cons.mp hp with rfl | hmem
        · exact hq
        · exact ih h p hmem

/-- Deletion of an absent key leaves the bag unchanged. -/
theorem deleteKey_of_getKey_none (l : PropertyBag) (k : String)
    (h : getKey l k = none) : deleteKey l k = l := by
  induction l with
  | nil => rfl
  | cons p rest ih =>
      by_cases hp : p.1 = k
      · simp [getKey, hp] at h
      · simp only [getKey, hp, if_false] at h
        simp [deleteKey, hp, ih h]

/-- Folding assignments of fresh distinct keys over a bag appends them. -/
theorem foldl_setKey_append (C : PropertyBag) :
    ∀ acc : PropertyBag, (∀ p ∈ C, getKey acc p.1 = none) →
      (C.map Prod.fst).Nodup →
      C.foldl (fun a p => setKey a p.1 p.2) acc = acc ++ C := by
  induction C with
  | nil => intro acc _ _; simp
  | cons p rest ih =>
      intro acc hacc hnd
      have hp : getKey acc p.1 = none := hacc p (List.mem_cons_self p rest)
      have hset : setKey acc p.1 p.2 = acc ++ [p] := by
        rw [setKey_of_getKey_none acc p.1 p.2 hp]
      have hnd2 : (rest.map Prod.fst).Nodup := by
        simp only [List.map_cons, List.nodup_cons] at hnd
        exact hnd.2
      have hnd1 : p.1 ∉ rest.map Prod.fst := by
        simp only [List.map_cons, List.nodup_cons] at hnd
        exact hnd.1
      have hacc2 : ∀ q ∈ rest, getKey (acc ++ [p]) q.1 = none := by
        intro q hq
        have h1 : getKey acc q.1 = none := hacc q (List.mem_cons_of_mem p hq)
        rw [getKey_append_of_none acc [p] q.1 h1]
        have hne : p.1 ≠ q.1 := by
          intro he
          exact hnd1 (he ▸ List.mem_map_of_mem Prod.fst hq)
        simp [getKey, hne]
      calc (p :: rest).foldl (fun a q => setKey a q.1 q.2) acc
          = rest.foldl (fun a q => setKey a q.1 q.2) (setKey acc p.1 p.2) := rfl
        _ = (acc ++ [p]) ++ rest := by rw [hset]; exact ih (acc ++ [p]) hacc2 hnd2
        _ = acc ++ (p :: rest) := by simp

/-- Extension of a one-key record by a bag that does not contain the key
and has pairwise distinct keys simply conses the injected pair. -/
theorem extendRecord_singleton (k v : String) (C : PropertyBag)
    (hk : getKey C k = none) (hnd : (C.map Prod.fst).Nodup) :
    extendRecord [(k, v)] C = (k, v) :: C := by
  have hacc : ∀ p ∈ C, getKey [(k, v)] p.1 = none := by
    intro p hp
    have hne : p.1 ≠ k := forall_ne_of_getKey_none C k hk p hp
    simp [getKey, Ne.symm hne]
  have h := foldl_setKey_append C [(k, v)] hacc hnd
  simpa [extendRecord] using h

/-- Detaching every handler of f leaves no handler of f. -/
theorem listenerCount_removeListeners_self (f : String) (ls : List String) :
    listenerCount f (removeListeners f ls) = 0 := by
  induction ls with
  | nil => rfl
  | cons a t ih =>
      by_cases ha : a = f
      · simp [removeListeners, ha, ih]
      · simp [removeListeners, listenerCount, ha, ih]

/-- Detaching the handlers of f never increases the handler count of any
authenticator. -/
theorem listenerCount_removeListeners_le (g f : String) (ls : List String) :
    listenerCount g (removeListeners f ls) ≤ listenerCount g ls := by
  induction ls with
  | nil => exact Nat.le_refl 0
  | cons a t ih =>
      by_cases ha : a = f
      · simp only [removeListeners, ha, if_true, listenerCount]
        exact Nat.le_trans ih (Nat.le_add_left _ _)
      · simp only [removeListeners, ha, if_false, listenerCount]
        exact Nat.add_le_add_left ih _

/-- Handler counts add over concatenation of handler bags. -/
theorem listenerCount_append (g : String) (l1 l2 : List String) :
    listenerCount g (l1 ++ l2) = listenerCount g l1 + listenerCount g l2 := by
  induction l1 with
  | nil => simp [listenerCount]
  | cons a t ih => simp [listenerCount, ih, Nat.add_assoc]

/-- Rebinding leaves exactly one handler on the bound authenticator. -/
theorem listenerCount_bind_self (f : String) (ls : List String) :
    listenerCount f (bindToAuthenticatorEvents f ls) = 1 := by
  simp [bindToAuthenticatorEvents, listenerCount_append,
    listenerCount_removeListeners_self, listenerCount]

/-- Rebinding to f does not add handlers on any other authenticator. -/
theorem listenerCount_bind_other (g f : String) (h : g ≠ f) (ls : List String) :
    listenerCount g (bindToAuthenticatorEvents f ls)
      = listenerCount g (removeListeners f ls) := by
  simp [bindToAuthenticatorEvents, listenerCount_append, listenerCount,
    Ne.symm h]

/-- Combined listener invariant: every authenticator holds at most one
handler, and the active authenticator holds exactly one. -/
def ListenerInvariant (m : MachineState) : Prop :=
  (∀ g, listenerCount g m.listeners ≤ 1) ∧
  (∀ f, m.session.authenticatorFactory = some f →
    listenerCount f m.listeners = 1)

/-- Rebinding preserves the at-most-one bound and pins the bound
authenticator at exactly one handler. -/
theorem bind_listener_bounds (f : String) (ls : List String)
    (h1 : ∀ g, listenerCount g ls ≤ 1) :
    (∀ g, listenerCount g (bindToAuthenticatorEvents f ls) ≤ 1) ∧
    listenerCount f (bindToAuthenticatorEvents f ls) = 1 := by
  refine ⟨?_, listenerCount_bind_self f ls⟩
  intro g
  by_cases hg : g = f
  · subst hg
    rw [listenerCount_bind_self]
  · rw [listenerCount_bind_other g f hg]
    exact Nat.le_trans (listenerCount_removeListeners_le g f ls) (h1 g)

/-- Every transition of the machine preserves the listener invariant. -/
theorem step_preserves_listener_invariant (m : MachineState) (e : Event)
    (h : ListenerInvariant m) : ListenerInvariant (step m e) := by
  obtain ⟨h1, h2⟩ := h
  cases e with
  | authenticate locked f outcome =>
      cases outcome with
      | ok c =>
          obtain ⟨hb1, hb2⟩ := bind_listener_bounds f m.listeners h1
          refine ⟨?_, ?_⟩
          · intro g
            simpa [step, authenticateJs, setupJs] using hb1 g
          · intro f2 hf2
            simp only [step, authenticateJs, setupJs] at hf2 ⊢
            have : f = f2 := by simpa using hf2
            subst this
            exact hb2
      | error err =>
          refine ⟨?_, ?_⟩
          · intro g
            simpa [step, authenticateJs, clearJs] using h1 g
          · intro f2 hf2
            simp [step, authenticateJs, clearJs] at hf2
  | invalidate locked outcome =>
      cases hfac : m.session.authenticatorFactory with
      | none =>
          refine ⟨?_, ?_⟩
          · intro g
            simpa [step, invalidateJs, hfac] using h1 g
          · intro f2 hf2
            exfalso
            simp [step, invalidateJs, hfac] at hf2
      | some f =>
          cases outcome with
          | ok u =>
              refine ⟨?_, ?_⟩
              · intro g
                simp only [step, invalidateJs, hfac, clearJs]
                exact Nat.le_trans
                  (listenerCount_removeListeners_le g f m.listeners) (h1 g)
              · intro f2 hf2
                simp [step, invalidateJs, hfac, clearJs] at hf2
          | error err =>
              refine ⟨?_, ?_⟩
              · intro g
                simpa [step, invalidateJs, hfac] using h1 g
              · intro f2 hf2
                simp only [step, invalidateJs, hfac] at hf2 ⊢
                have hff : f = f2 := by simpa using hf2
                subst hff
                exact h2 f hfac
  | sessionUpdated locked c =>
      cases hemp : m.listeners.isEmpty with
      | true =>
          refine ⟨?_, ?_⟩
          · intro g
            simpa [step, hemp] using h1 g
          · intro f2 hf2
            simp only [step, hemp] at hf2 ⊢
            exact h2 f2 hf2
      | false =>
          cases hfac : m.session.authenticatorFactory with
          | none =>
              refine ⟨?_, ?_⟩
              · intro g
                simpa [step, hemp, hfac, setupJs] using h1 g
              · intro f2 hf2
                simp [step, hemp, hfac, setupJs] at hf2
          | some f =>
              obtain ⟨hb1, hb2⟩ := bind_listener_bounds f m.listeners h1
              refine ⟨?_, ?_⟩
              · intro g
                simpa [step, hemp, hfac, setupJs] using hb1 g
              · intro f2 hf2
                simp only [step, hemp, hfac, setupJs] at hf2 ⊢
                have : f = f2 := by simpa using hf2
                subst this
                exact hb2
  | storeUpdated locked props ro =>
      cases htf : truthyFactory props with
      | none =>
          refine ⟨?_, ?_⟩
          · intro g
            simpa [step, storeUpdatedJs, htf, clearJs] using h1 g
          · intro f2 hf2
            simp [step, storeUpdatedJs, htf, clearJs] at hf2
      | some f =>
          cases ro with
          | ok c =>
              obtain ⟨hb1, hb2⟩ := bind_listener_bounds f m.listeners h1
              refine ⟨?_, ?_⟩
              · intro g
                simpa [step, storeUpdatedJs, htf, setupJs] using hb1 g
              · intro f2 hf2
                simp only [step, storeUpdatedJs, htf, setupJs] at hf2 ⊢
                have : f = f2 := by simpa using hf2
                subst this
                exact hb2
          | error u =>
              refine ⟨?_, ?_⟩
              · intro g
                simpa [step, storeUpdatedJs, htf, clearJs] using h1 g
              · intro f2 hf2
                simp [step, storeUpdatedJs, htf, clearJs] at hf2

/-- Every run of the machine preserves the listener invariant. -/
theorem runFrom_preserves_listener_invariant (events : List Event) :
    ∀ m : MachineState, ListenerInvariant m →
      ListenerInvariant (runFrom m events) := by
  induction events with
  | nil => intro m h; exact h
  | cons e rest ih =>
      intro m h
      exact ih (step m e) (step_preserves_listener_invariant m e h)

/-- Admissible transitions preserve the session-state invariant. -/
theorem step_preserves_session_invariant (m : MachineState) (e : Event)
    (hinv : SessionInvariant m.session = true) (hok : eventOk m e = true) :
    SessionInvariant (step m e).session = true := by
  cases e with
  | authenticate locked f outcome =>
      cases outcome with
      | ok c => simp [step, authenticateJs, setupJs, SessionInvariant]
      | error err => simp [step, authenticateJs, clearJs, SessionInvariant]
  | invalidate locked outcome =>
      cases hfac : m.session.authenticatorFactory with
      | none => simpa [step, invalidateJs, hfac] using hinv
      | some f =>
          cases outcome with
          | ok u => simp [step, invalidateJs, hfac, clearJs, SessionInvariant]
          | error err => simpa [step, invalidateJs, hfac] using hinv
  | sessionUpdated locked c =>
      have hauth : m.session.isAuthenticated = true := by
        simpa [eventOk] using hok
      cases hemp : m.listeners.isEmpty with
      | true => simpa [step, hemp] using hinv
      | false =>
          cases hfac : m.session.authenticatorFactory with
          | none =>
              exfalso
              have hcontra := hinv
              simp [SessionInvariant, hauth, hfac] at hcontra
          | some f => simp [step, hemp, hfac, setupJs, SessionInvariant]
  | storeUpdated locked props ro =>
      cases htf : truthyFactory props with
      | none => simp [step, storeUpdatedJs, htf, clearJs, SessionInvariant]
      | some f =>
          cases ro with
          | ok c => simp [step, storeUpdatedJs, htf, setupJs, SessionInvariant]
          | error u => simp [step, storeUpdatedJs, htf, clearJs, SessionInvariant]

/-- Admissible runs preserve the session-state invariant. -/
theorem runFrom_preserves_session_invariant (events : List Event) :
    ∀ m : MachineState, SessionInvariant m.session = true →
      okTrace m events = true →
      SessionInvariant (runFrom m events).session = true := by
  induction events with
  | nil => intro m h _; exact h
  | cons e rest ih =>
      intro m h hok
      have hsplit : eventOk m e = true ∧ okTrace (step m e) rest = true := by
        simpa [okTrace, Bool.and_eq_true] using hok
      exact ih (step m e)
        (step_preserves_session_invariant m e h hsplit.1) hsplit.2

/-- Trace exhibiting a reachable half-set state: a successful authenticate
with authenticator A leaves a handler attached to A, a failed authenticate
with B clears the session without detaching that handler, and the stale
handler then fires setup with the now-null current factory. -/
def c1Trace : List Event :=
  [Event.authenticate false "A" (Except.ok [("t", "1")]),
   Event.authenticate false "B" (Except.error "bad-credentials"),
   Event.sessionUpdated false [("t", "2")]]

/-- C1: the claim as stated is false on the code. After the concrete event
sequence c1Trace the session is reachable with isAuthenticated true while
authenticatorFactory is null, so the claimed equivalence between
isAuthenticated and the joint presence of factory and content fails at a
reachable state. -/
theorem c1_counterexample :
    (runMachine c1Trace).session.isAuthenticated = true ∧
    (runMachine c1Trace).session.authenticatorFactory = none ∧
    SessionInvariant (runMachine c1Trace).session = false := by
  exact ⟨rfl, rfl, rfl⟩

/-- C1 (amended): for every reachable state of the Session in which each
session-updated event is delivered only while the session is authenticated
(the firing condition the specification gives for that notification),
isAuthenticated is true exactly when authenticatorFactory and content are
both non-null; the three fields are always updated together. -/
theorem c1_amended_session_invariant (events : List Event)
    (hok : okTrace initMachine events = true) :
    SessionInvariant (runMachine events).session = true :=
  runFrom_preserves_session_invariant events initMachine rfl hok

/-- Concrete instantiation of the amended C1 invariant. -/
theorem c1_amended_witness :
    okTrace initMachine
        [Event.authenticate false "pw" (Except.ok [("token", "T")]),
         Event.sessionUpdated false [("token", "T2")]] = true ∧
    SessionInvariant (runMachine
        [Event.authenticate false "pw" (Except.ok [("token", "T")]),
         Event.sessionUpdated false [("token", "T2")]]).session = true :=
  ⟨by decide, c1_amended_session_invariant
      [Event.authenticate false "pw" (Except.ok [("token", "T")]),
       Event.sessionUpdated false [("token", "T2")]] (by decide)⟩

/-- C2: the store-mutating sequences of setup and clear are guarded by the
lock. When the store reports locked, neither setup nor clear emits any
store call. When it reports unlocked, setup emits exactly lock, clear,
persist of the extended record, unlock, in that order, and clear emits
exactly the single store clear. -/
theorem c2_store_write_guard (f : String) (c : PropertyBag) (ls : List String) :
    (setupJs true (some f) c ls).2.2 = [] ∧
    (clearJs true).2 = [] ∧
    (setupJs false (some f) c ls).2.2 =
      [StoreOp.lock, StoreOp.clear, StoreOp.persist (setupPersistedData f c),
        StoreOp.unlock] ∧
    (clearJs false).2 = [StoreOp.clear] :=
  ⟨rfl, rfl, rfl, rfl⟩

/-- Trace switching the active authenticator from A to B through two
successful authenticate calls. -/
def c3Trace : List Event :=
  [Event.authenticate false "A" (Except.ok [("t", "1")]),
   Event.authenticate false "B" (Except.ok [("t", "2")])]

/-- C3: the claim as stated is false on the code. After the concrete event
sequence c3Trace the active authenticator is B, yet one session-updated
handler is still attached to the previously active authenticator A,
because bindToAuthenticatorEvents only detaches handlers from the newly
looked-up authenticator and clear detaches nothing. -/
theorem c3_counterexample :
    (runMachine c3Trace).session.authenticatorFactory = some "B" ∧
    listenerCount "A" (runMachine c3Trace).listeners = 1 ∧
    listenerCount "B" (runMachine c3Trace).listeners = 1 := by
  exact ⟨rfl, rfl, rfl⟩

/-- C3 (amended): after any sequence of events, every authenticator holds
at most one session-updated handler (rebinding the same authenticator is
idempotent and never accumulates handlers), and the currently active
authenticator holds exactly one; a single stale handler may however remain
attached to a previously active different authenticator. -/
theorem c3_amended_listener_invariant (events : List Event) :
    (∀ g, listenerCount g (runMachine events).listeners ≤ 1) ∧
    (∀ f, (runMachine events).session.authenticatorFactory = some f →
      listenerCount f (runMachine events).listeners = 1) :=
  runFrom_preserves_listener_invariant events initMachine
    ⟨fun g => Nat.le_of_eq rfl |>.trans (Nat.zero_le 1), fun f h => by cases h⟩

/-- Concrete instantiation of the amended C3 invariant. -/
theorem c3_amended_witness :
    listenerCount "B" (runMachine c3Trace).listeners = 1 :=
  (c3_amended_listener_invariant c3Trace).2 "B" rfl

/-- C4: when invalidate is called with an active authenticator and the
invalidate promise rejects with error e, the session state, the handlers
and the store are all left unchanged and the caller receives exactly e. -/
theorem c4_invalidate_rejected (locked : Bool) (s : SessionState)
    (ls : List String) (f e : String)
    (ha : s.isAuthenticated = true)
    (hf : s.authenticatorFactory = some f) :
    invalidateJs locked s ls (Except.error e) = (s, ls, [], Except.error e) := by
  simp [invalidateJs, hf]

/-- Concrete instantiation of C4. -/
theorem c4_witness :
    invalidateJs false ⟨true, some "pw", some [("token", "T")]⟩ ["pw"]
        (Except.error "server-unreachable")
      = (⟨true, some "pw", some [("token", "T")]⟩, ["pw"], [],
          Except.error "server-unreachable") :=
  c4_invalidate_rejected false ⟨true, some "pw", some [("token", "T")]⟩
    ["pw"] "pw" "server-unreachable" rfl rfl

/-- C5: when the chosen authenticator rejects authentication with error e,
the session runs clear, ending unauthenticated with null factory and null
content, the handlers are untouched, the store receives the clear of the
clear routine exactly when unlocked, and the caller receives exactly e. -/
theorem c5_authenticate_rejected (locked : Bool) (f e : String)
    (ls : List String) :
    authenticateJs locked f (Except.error e) ls =
      (⟨false, none, none⟩, ls, (if locked then [] else [StoreOp.clear]),
        Except.error e) := by
  simp [authenticateJs, clearJs]

/-- C6: behaviour of the boot-time restore rejection path. Whatever the
lock state, when the persisted record carries a truthy factory and the
restore promise rejects, the init handler raises a TypeError (it reads
this.store with an undefined this) that the promise machinery absorbs, no
store call is made at all, and the session stays unauthenticated. In
particular the store is NOT cleared in the unlocked case, against both the
claim and the clear intent of the surrounding code. -/
theorem c6_init_restore_rejection (locked : Bool) (r : PropertyBag)
    (f : String) (hf : truthyFactory r = some f) :
    initJs locked r (Except.error ()) =
      (⟨false, none, none⟩, [], [],
        some "TypeError: cannot read property store of undefined") := by
  simp [initJs, hf]

/-- Concrete instantiation of C6 at the failing input. -/
theorem c6_witness :
    initJs false [("authenticatorFactory", "pw"), ("token", "T")]
        (Except.error ())
      = (⟨false, none, none⟩, [], [],
          some "TypeError: cannot read property store of undefined") :=
  c6_init_restore_rejection false
    [("authenticatorFactory", "pw"), ("token", "T")] "pw" (by decide)

/-- C7: when a store notification delivers properties without a truthy
factory, or with one whose restore rejects, the handler runs clear
unconditionally: the session becomes unauthenticated whatever the lock
state, and the store clear call is issued exactly when unlocked. -/
theorem c7_store_update_clears (locked : Bool) (props : PropertyBag)
    (ro : Except Unit PropertyBag) (ls : List String)
    (h : truthyFactory props = none ∨ ro = Except.error ()) :
    storeUpdatedJs locked props ro ls =
      (⟨false, none, none⟩, ls, if locked then [] else [StoreOp.clear]) := by
  cases htf : truthyFactory props with
  | none => simp [storeUpdatedJs, htf, clearJs]
  | some f =>
      rcases h with hnone | herr
      · rw [htf] at hnone; cases hnone
      · subst herr
        simp [storeUpdatedJs, htf, clearJs]

/-- Concrete instantiation of C7: an empty external update while unlocked
clears the session and issues the store clear. -/
theorem c7_witness :
    storeUpdatedJs false [] (Except.ok []) [] =
      (⟨false, none, none⟩, [], [StoreOp.clear]) :=
  c7_store_update_clears false [] (Except.ok []) [] (Or.inl rfl)

/-- C8: the round trip as claimed for every content fails on the code.
With id pw and content carrying its own authenticatorFactory key valued
other, the persisted record keeps the value from the content (Ember.$.extend
lets the second argument override the first), so the reconstructed session
holds authenticator other instead of pw. -/
theorem c8_counterexample :
    (initJs false (setupPersistedData "pw" [("authenticatorFactory", "other")])
        (Except.ok (deleteKey
          (setupPersistedData "pw" [("authenticatorFactory", "other")])
          "authenticatorFactory"))).1.authenticatorFactory = some "other" ∧
    (initJs false (setupPersistedData "pw" [("authenticatorFactory", "other")])
        (Except.ok (deleteKey
          (setupPersistedData "pw" [("authenticatorFactory", "other")])
          "authenticatorFactory"))).1.authenticatorFactory ≠ some "pw" := by
  exact ⟨rfl, by decide⟩

/-- C8 (amended): for every non-empty authenticator id and every content C
with pairwise distinct keys that does not itself contain an
authenticatorFactory key, an authenticate resolving with C persists
exactly the record C extended with the injected id, the injected key is
stripped before the record is handed to restore (the stripped record is C
itself), and a session reconstructed from that record through a forwarding
restore holds authenticatorFactory id and content C. -/
theorem c8_roundtrip_amended (f : String) (C : PropertyBag) (locked : Bool)
    (hf : f ≠ "") (hk : getKey C "authenticatorFactory" = none)
    (hnd : (C.map Prod.fst).Nodup) :
    (authenticateJs false f (Except.ok C) []).2.2.1 =
      [StoreOp.lock, StoreOp.clear, StoreOp.persist (setupPersistedData f C),
        StoreOp.unlock] ∧
    deleteKey (setupPersistedData f C) "authenticatorFactory" = C ∧
    (initJs locked (setupPersistedData f C)
        (Except.ok (deleteKey (setupPersistedData f C) "authenticatorFactory"))).1
      = ⟨true, some f, some C⟩ := by
  have hdata : setupPersistedData f C = ("authenticatorFactory", f) :: C :=
    extendRecord_singleton "authenticatorFactory" f C hk hnd
  have hdel : deleteKey (setupPersistedData f C) "authenticatorFactory" = C := by
    rw [hdata]
    simp [deleteKey, deleteKey_of_getKey_none C "authenticatorFactory" hk]
  refine ⟨rfl, hdel, ?_⟩
  rw [hdel, hdata]
  simp [initJs, truthyFactory, getKey, hf, setupJs]

/-- Concrete instantiation of the amended C8 round trip. -/
theorem c8_witness :
    (authenticateJs false "pw" (Except.ok [("token", "T")]) []).2.2.1 =
      [StoreOp.lock, StoreOp.clear,
        StoreOp.persist (setupPersistedData "pw" [("token", "T")]),
        StoreOp.unlock] ∧
    deleteKey (setupPersistedData "pw" [("token", "T")]) "authenticatorFactory"
      = [("token", "T")] ∧
    (initJs false (setupPersistedData "pw" [("token", "T")])
        (Except.ok (deleteKey (setupPersistedData "pw" [("token", "T")])
          "authenticatorFactory"))).1
      = ⟨true, some "pw", some [("token", "T")]⟩ :=
  c8_roundtrip_amended "pw" [("token", "T")] false (by decide) (by decide)
    (by decide)

/-- C9: each of the three operations of the inert base authenticator
returns a promise that rejects on every input and never resolves; for
invalidate the rejection reason is the ReferenceError raised by the
executor, which the promise machinery converts into a rejection. -/
theorem c9_base_authenticator_always_rejects
    (properties options content : PropertyBag) :
    (Authenticators.Base.restore properties).isRejected = true ∧
    (Authenticators.Base.authenticate options).isRejected = true ∧
    (Authenticators.Base.invalidate content).isRejected = true :=
  ⟨rfl, rfl, rfl⟩

/-- C10: the base authorize is a pure no-op: for every session content,
request and request options it returns no value, leaves the request and
the options unchanged, and its output never depends on the session. -/
theorem c10_authorize_noop (s s2 : Option PropertyBag)
    (jqXHR requestOptions : PropertyBag) :
    Authorizers.Base.authorize s jqXHR requestOptions
        = (jqXHR, requestOptions, none) ∧
    Authorizers.Base.authorize s jqXHR requestOptions
        = Authorizers.Base.authorize s2 jqXHR requestOptions :=
  ⟨rfl, rfl⟩

end EmberSimpleAuth
